import Mathlib

/-!
Verification of the task-caller voice server (`src/server.js`).

The development shallowly embeds the pure decision logic of the program:

* the task data model and the due-task filtering/sorting engine
  (`getUpcomingTasks`, called `computeDueTasks` in the specification);
* the JSON-extraction step of `extractTaskFromSpeech` (the greedy
  brace-span regex match followed by `JSON.parse`);
* the dialog webhook handlers (`/voice/process-speech`,
  `/voice/confirm-task`, `/voice/auto-confirm`, `/voice/add-another`,
  `/voice/morning-briefing`, `/voice/morning-choice`,
  `/voice/transcription-callback`, ...) as functions from the process-wide
  scratch state (`app.locals.pendingTask`) and the inputs of the turn to the
  new state plus the list of TwiML actions rendered in the response.

Machine-level conventions: JavaScript `Date` instants are modelled as
integer milliseconds since the Unix epoch; `new Date("YYYY-MM-DD")` is
modelled by a validating parser for the documented ISO date format of the
store (an unparseable string, the JavaScript `Invalid Date` / `NaN`, is modelled as
`none`, and every comparison with it is false, exactly as NaN comparisons
are).  External collaborators (the Twilio gateway, the Google-Sheets store,
the Anthropic extraction service) enter as explicit parameters: the
outcome of the extraction call, and whether the sheet append succeeded.
-/

namespace Taskme

/-- A task row as produced by `readTasks` (`src/server.js` lines 60-78):
`rowIndex` is the 1-based sheet row (data starts at row 2), and the four
text columns default to the empty string / `Medium` / `Not Started` / the
empty string. -/
structure Task where
  rowIndex : Nat
  task : String
  priority : String
  status : String
  dueDate : String
deriving DecidableEq, Repr

/-! ### Date model

`new Date("YYYY-MM-DD")` parses the documented ISO date format of the store to
UTC midnight.  We model the instant as milliseconds since the epoch via the
standard days-from-civil-date computation, validating month and day ranges
the way the ISO path of the JavaScript date parser does.  Strings not in
the `YYYY-MM-DD` shape are modelled as unparseable (`Invalid Date`). -/

def isLeapYear (y : Int) : Bool :=
  (y % 4 == 0 && y % 100 != 0) || y % 400 == 0

def daysInMonth (y : Int) (m : Int) : Int :=
  if m = 2 then (if isLeapYear y then 29 else 28)
  else if m = 4 || m = 6 || m = 9 || m = 11 then 30
  else 31

/-- Days since 1970-01-01 of the civil date `y-m-d` (proleptic Gregorian). -/
def daysFromCivil (y m d : Int) : Int :=
  let y' := if m ≤ 2 then y - 1 else y
  let era := (if 0 ≤ y' then y' else y' - 399) / 400
  let yoe := y' - era * 400
  let mp := (m + 9) % 12
  let doy := (153 * mp + 2) / 5 + d - 1
  let doe := yoe * 365 + yoe / 4 - yoe / 100 + doy
  era * 146097 + doe - 719468

def digitVal (c : Char) : Option Int :=
  if c.isDigit then some (Int.ofNat (c.toNat - 48)) else none

/-- Parse a `YYYY-MM-DD` string into its (year, month, day) components,
validating the calendar ranges. -/
def parseYMD (s : String) : Option (Int × Int × Int) :=
  match s.data with
  | [y1, y2, y3, y4, h1, m1, m2, h2, d1, d2] =>
    if h1 = '-' && h2 = '-' then
      match digitVal y1, digitVal y2, digitVal y3, digitVal y4,
            digitVal m1, digitVal m2, digitVal d1, digitVal d2 with
      | some a, some b, some c, some d, some e, some f, some g, some h =>
        let y := ((a * 10 + b) * 10 + c) * 10 + d
        let m := e * 10 + f
        let dd := g * 10 + h
        if 1 ≤ m && m ≤ 12 && 1 ≤ dd && dd ≤ daysInMonth y m then
          some (y, m, dd)
        else none
      | _, _, _, _, _, _, _, _ => none
    else none
  | _ => none

def msPerDay : Int := 86400000

/-- JavaScript `new Date(s).getTime()` for a due-date string: UTC-midnight
milliseconds for a valid `YYYY-MM-DD` string, `none` (= `NaN`, `Invalid
Date`) otherwise. -/
def parseDate (s : String) : Option Int :=
  (parseYMD s).map (fun p => daysFromCivil p.1 p.2.1 p.2.2 * msPerDay)

/-! ### Due-task scheduler

`getUpcomingTasks(days = 5)` (`src/server.js` lines 83-103) filters the
task rows and sorts the survivors with a comparator.  The two `new Date()`
calls for `now` and `cutoff` are modelled as a single reference instant
`now`; `cutoff.setDate(cutoff.getDate() + days)` advances the reference
instant by `days` calendar days, i.e. `days * 86400000` ms (local-time
calendar arithmetic can differ by a DST hour; clock/timezone behaviour is
outside the embedding). -/

/-- JavaScript `s.toLowerCase()`, modelled character-wise on the underlying character
list. -/
def jsToLower (s : String) : String := ⟨s.data.map Char.toLower⟩

/-- The value produced by the JavaScript lookup
`priorityOrder[p.toLowerCase()]` followed by `?? 1` (`src/server.js`
lines 97-99).  An object-literal lookup consults the whole prototype
chain, so besides the own keys `high` / `medium` / `low` the lowercased
keys `__proto__` and `constructor` also hit: they yield truthy objects
(`Object.prototype` and the `Object` constructor) which `?? 1` keeps.
Every other key yields `undefined`, which `?? 1` replaces by `1`. -/
inductive PriorityVal where
  | num (n : Nat)
  | protoObj
  | objCtor
deriving DecidableEq, Repr

def priorityVal (p : String) : PriorityVal :=
  let q := jsToLower p
  if q = "high" then .num 0
  else if q = "medium" then .num 1
  else if q = "low" then .num 2
  else if q = "__proto__" then .protoObj
  else if q = "constructor" then .objCtor
  else .num 1

/-- The priority rank in the sense of the specification: High = 0,
Medium = 1, Low = 2, any other priority ranking as Medium.  The faithful
program-side lookup is `priorityVal`, which agrees with `.num` of this
rank except on the two inherited object keys. -/
def priorityRank (p : String) : Nat :=
  let q := jsToLower p
  if q = "high" then 0
  else if q = "medium" then 1
  else if q = "low" then 2
  else 1

/-- The completed-status test of the filter:
the lowercased status equals `completed` or equals `done`. -/
def statusDone (t : Task) : Bool :=
  jsToLower t.status == "completed" || jsToLower t.status == "done"

/-- The filter predicate of `getUpcomingTasks`: drop completed/done rows,
rows with an empty (falsy) due date, and rows whose due date fails to
parse (`NaN` comparisons are false) or falls outside `[now, cutoff]`. -/
def dueFilter (now cutoff : Int) (t : Task) : Bool :=
  if statusDone t then false
  else if t.dueDate = "" then false
  else
    match parseDate t.dueDate with
    | none => false
    | some due => decide (now ≤ due) && decide (due ≤ cutoff)

/-- The due instant used by the sort comparator,
`new Date(t.dueDate)`; the comparator only ever runs on filtered rows, for
which the date parsed, so the `0` default is never reached. -/
def dueMs (t : Task) : Int := (parseDate t.dueDate).getD 0

/-- The comparator of `getUpcomingTasks` (`src/server.js` lines 96-102)
as the sort consumes it: when the two looked-up priority values are not
strictly equal the comparator returns `pA - pB` — a number difference for
two numeric ranks, and `NaN` whenever an inherited object is involved,
which `SortCompare` coerces to `+0` — otherwise the due-instant
difference. -/
def sortCompare (a b : Task) : Int :=
  match priorityVal a.priority, priorityVal b.priority with
  | .num x, .num y =>
    if x = y then dueMs a - dueMs b else (x : Int) - (y : Int)
  | .protoObj, .protoObj => dueMs a - dueMs b
  | .objCtor, .objCtor => dueMs a - dueMs b
  | _, _ => 0

/-- Relation: `a` sorts no later than `b` under the comparator of
`getUpcomingTasks` (comparator value `≤ 0`).  With an inherited-key
priority in play the comparator is not transitive; on inputs free of the
two inherited keys it is the consistent rank-then-due-date order
`TaskLeC` below. -/
def TaskLe (a b : Task) : Prop :=
  sortCompare a b ≤ 0

instance : DecidableRel TaskLe := fun a b => by
  unfold TaskLe; infer_instance

/-- The consistent rank-then-due-date order: strictly smaller priority
rank, or equal rank and an earlier-or-equal due instant.  On tasks whose
lowercased priority avoids `__proto__` and `constructor` this coincides
with `TaskLe`, and unlike `TaskLe` it is total and transitive. -/
def TaskLeC (a b : Task) : Prop :=
  priorityRank a.priority < priorityRank b.priority ∨
    (priorityRank a.priority = priorityRank b.priority ∧ dueMs a ≤ dueMs b)

instance : DecidableRel TaskLeC := fun a b => by
  unfold TaskLeC; infer_instance

instance : IsTotal Task TaskLeC := by
  constructor
  intro a b
  unfold TaskLeC
  omega

instance : IsTrans Task TaskLeC := by
  constructor
  intro a b c hab hbc
  unfold TaskLeC at *
  omega

/-- The pure core of `getUpcomingTasks(days = 5)`: filter, then the stable
`Array.prototype.sort` with the priority-then-due-date comparator
(insertion sort is stable, so it realizes the same result). -/
def computeDueTasks (tasks : List Task) (now : Int) (days : Nat := 5) :
    List Task :=
  (tasks.filter (dueFilter now (now + days * msPerDay))).insertionSort TaskLe

/-! ### Briefing composer

`dueDate.toLocaleDateString` with the en-US locale, long weekday, short
month and numeric day renders e.g. `Monday, Feb 10`; we render the civil date
as written (UTC), locale-dependent timezone shifting being outside the
embedding.  An invalid date renders as `Invalid Date`, as in JavaScript. -/

def weekdayNames : List String :=
  ["Thursday", "Friday", "Saturday", "Sunday", "Monday", "Tuesday",
   "Wednesday"]

def monthShortNames : List String :=
  ["Jan", "Feb", "Mar", "Apr", "May", "Jun", "Jul", "Aug", "Sep", "Oct",
   "Nov", "Dec"]

def formatDueDate (s : String) : String :=
  match parseYMD s with
  | some (y, m, d) =>
    let wd := (daysFromCivil y m d % 7).toNat
    weekdayNames.getD wd "" ++ ", " ++ monthShortNames.getD (m - 1).toNat ""
      ++ " " ++ toString d
  | none => "Invalid Date"

/-- One sentence of the rundown (`src/server.js` lines 206-210), for the
task at 0-based position `i`. -/
def briefingTaskLine (i : Nat) (t : Task) : String :=
  "Task " ++ toString (i + 1) ++ ": " ++ t.task ++ ". Priority: "
    ++ t.priority ++ ". Due: " ++ formatDueDate t.dueDate ++ ". Status: "
    ++ t.status ++ ". "

/-- The fixed zero-task briefing line (`src/server.js` lines 198-201). -/
def noTasksMsg : String :=
  "Good morning Jason! You have no tasks due in the next 5 days. Have a great day!"

/-- The spoken rundown for `n ≥ 1` due tasks (`src/server.js` lines
204-212). -/
def composeBriefing (tasks : List Task) : String :=
  "Good morning Jason! You have " ++ toString tasks.length ++ " task"
    ++ (if tasks.length > 1 then "s" else "")
    ++ " coming up in the next 5 days. Here\x27s your rundown. "
    ++ String.join (tasks.enum.map (fun p => briefingTaskLine p.1 p.2))
    ++ "That\x27s your lineup. Go crush it today!"

/-! ### Dialog state machine

Each Twilio webhook handler is embedded as a function from the
process-wide scratch state (`app.locals.pendingTask` plus the rows already
appended to the sheet) and the inputs of the turn to the new state and the
TwiML actions rendered into the response.  Destinations keep the route
paths (the `BASE_URL` prefix is a constant and is omitted). -/

/-- A draft task extracted from speech (mirrors the JSON fields the
extraction service is instructed to return). -/
structure TaskData where
  task : String
  priority : String
  status : String
  dueDate : String
deriving DecidableEq, Repr

/-- The process-wide state visible to the dialog: the single pending-draft
slot and the task rows appended so far. -/
structure ServerState where
  pendingTask : Option TaskData
  sheet : List TaskData
deriving DecidableEq, Repr

/-- TwiML instructions produced by a handler, in response order.
`gather` carries its action destination and the nested prompts; `record`
carries its action destination and the optional transcription callback. -/
inductive Action where
  | say (msg : String)
  | gather (dest : String) (prompts : List String)
  | record (dest : String) (transcribeCallback : Option String)
  | redirect (dest : String)
  | hangup
deriving DecidableEq, Repr

/-- The outcome of the `extractTaskFromSpeech` call as seen by a handler:
a parsed draft, the not-a-task `{"error": ...}` signal of the service, or a
thrown error (parse failure or service failure), which the handler
catches. -/
inductive ExtractOutcome where
  | success (d : TaskData)
  | notATask
  | thrown
deriving DecidableEq, Repr

/-- JavaScript `haystack.includes(needle)`: `needle` occurs as a
contiguous substring. -/
def strIncludesL : List Char → List Char → Bool
  | hay, needle =>
    needle.isPrefixOf hay ||
      match hay with
      | [] => false
      | _ :: t => strIncludesL t needle

def strIncludes (hay needle : String) : Bool :=
  strIncludesL hay.data needle.data

/-- The accept test of the confirmation turn: keypad digit `1`, or the
speech input — defaulted to the empty string and lowercased — containing
`yes` or `confirm` (`src/server.js` line 389). -/
def confirmedOf (digits speechIn : Option String) : Bool :=
  let speech := jsToLower (speechIn.getD "")
  digits == some "1" || strIncludes speech "yes" || strIncludes speech "confirm"

/-- The reject test of the confirmation turn: keypad digit `2`, or the
lowercased speech input containing `no` or `cancel` (`src/server.js`
line 390). -/
def deniedOf (digits speechIn : Option String) : Bool :=
  let speech := jsToLower (speechIn.getD "")
  digits == some "2" || strIncludes speech "no" || strIncludes speech "cancel"

def didntCatchMsg : String := "I didn\x27t catch that. Let\x27s try again."

def couldNotUnderstandMsg : String :=
  "I couldn\x27t understand that as a task. Let\x27s try again."

def troubleProcessingMsg : String :=
  "I had trouble processing that. Let\x27s try again."

def summaryMsg (d : TaskData) : String :=
  "Got it. Here\x27s what I heard: " ++ d.task ++ ". Priority: "
    ++ d.priority ++ ". Due: " ++ formatDueDate d.dueDate ++ "."

def confirmPromptMsg : String :=
  "Press 1 or say yes to confirm. Press 2 or say no to try again."

def willSaveMsg : String := "I\x27ll save that for you."

def savedAddAnotherMsg : String :=
  "Task saved! Would you like to add another task?"

def addAnotherPromptMsg : String :=
  "Press 1 or say yes to add another. Otherwise, hang up or press 2."

def alrightGreatDayMsg : String := "Alright, have a great day Jason!"

def saveFailMsg : String :=
  "Sorry, I had trouble saving that. Please try again later."

def noProblemMsg : String := "No problem. Let\x27s try again."

def savedGreatDayMsg : String := "Task saved! Have a great day Jason!"

def greatDayJasonMsg : String := "Have a great day Jason!"

def heyJasonMsg : String := "Hey Jason! Tell me about the task you want to add."

def tellMeTaskMsg : String :=
  "Tell me about the task you\x27d like to add. Include the task name, priority if you have one, and when it\x27s due."

def press1Msg : String :=
  "Press 1 if you\x27d like to add a new task, or just hang up to go about your day."

def alrightProductiveMsg : String := "Alright, have a productive day Jason!"

def gotRecordingMsg : String :=
  "Got your recording. I\x27ll process it and add the task. You\x27ll see it in your sheet shortly. Goodbye!"

/-- Handler `POST /voice/inbound-speech` (`src/server.js` lines 293-315): greet,
gather speech towards `/voice/process-speech`, with a retry redirect as
timeout fallback.  The state is untouched. -/
def inboundSpeech : List Action :=
  [.say heyJasonMsg, .gather "/voice/process-speech" [],
   .say didntCatchMsg, .redirect "/voice/inbound-speech"]

/-- Handler `POST /voice/process-speech` (`src/server.js` lines 318-382).
`speechResult` is `req.body.SpeechResult` (absent or empty is falsy);
`ext` is the outcome of the `extractTaskFromSpeech` call, only consulted
when a transcript is present. -/
def processSpeech (st : ServerState) (speechResult : Option String)
    (ext : ExtractOutcome) : ServerState × List Action :=
  if speechResult.getD "" = "" then
    (st, [.say didntCatchMsg, .redirect "/voice/inbound-speech"])
  else
    match ext with
    | .thrown =>
      (st, [.say troubleProcessingMsg, .redirect "/voice/inbound-speech"])
    | .notATask =>
      (st, [.say couldNotUnderstandMsg, .redirect "/voice/inbound-speech"])
    | .success d =>
      ({ st with pendingTask := some d },
       [.say (summaryMsg d), .gather "/voice/confirm-task" [confirmPromptMsg],
        .say willSaveMsg, .redirect "/voice/auto-confirm"])

/-- Handler `POST /voice/confirm-task` (`src/server.js` lines 385-432).
`appendOk` is whether the sheet append succeeds when attempted
(the return value of `addTask`).  The branch structure mirrors the source:
`if (confirmed && app.locals.pendingTask) ... else if (denied) ... else
...`, and `app.locals.pendingTask = null` runs unconditionally at the
end. -/
def confirmTask (st : ServerState) (digits speechIn : Option String)
    (appendOk : Bool) : ServerState × List Action :=
  let confirmed := confirmedOf digits speechIn
  let denied := deniedOf digits speechIn
  match st.pendingTask with
  | some d =>
    if confirmed then
      if appendOk then
        ({ pendingTask := none, sheet := st.sheet ++ [d] },
         [.say savedAddAnotherMsg,
          .gather "/voice/add-another" [addAnotherPromptMsg],
          .say alrightGreatDayMsg, .hangup])
      else
        ({ pendingTask := none, sheet := st.sheet },
         [.say saveFailMsg, .hangup])
    else if denied then
      ({ pendingTask := none, sheet := st.sheet },
       [.say noProblemMsg, .redirect "/voice/inbound-speech"])
    else
      ({ pendingTask := none,
         sheet := if appendOk then st.sheet ++ [d] else st.sheet },
       [.say savedGreatDayMsg, .hangup])
  | none =>
    -- `confirmed && app.locals.pendingTask` is falsy with an empty slot,
    -- so the reject test is reached even on a turn that also confirms.
    if denied then
      ({ pendingTask := none, sheet := st.sheet },
       [.say noProblemMsg, .redirect "/voice/inbound-speech"])
    else
      ({ pendingTask := none, sheet := st.sheet }, [.hangup])

/-- Handler `POST /voice/auto-confirm` (`src/server.js` lines 435-445): the
timeout fallback armed by `process-speech`. -/
def autoConfirm (st : ServerState) (appendOk : Bool) :
    ServerState × List Action :=
  match st.pendingTask with
  | some d =>
    ({ pendingTask := none,
       sheet := if appendOk then st.sheet ++ [d] else st.sheet },
     [.say savedGreatDayMsg, .hangup])
  | none => (st, [.hangup])

/-- Handler `POST /voice/add-another` (`src/server.js` lines 448-462). -/
def addAnother (digits speechIn : Option String) : List Action :=
  let speech := jsToLower (speechIn.getD "")
  if digits == some "1" || strIncludes speech "yes" then
    [.redirect "/voice/inbound-speech"]
  else
    [.say greatDayJasonMsg, .hangup]

/-- Handler `POST /voice/process-task` (`src/server.js` lines 465-474): the
recording-flow action URL; it only speaks and hangs up (the append happens
later in the transcription callback). -/
def processTask : List Action := [.say gotRecordingMsg, .hangup]

/-- Handler `POST /voice/transcription-callback` (`src/server.js` lines 477-492):
the asynchronous Twilio transcription of the recorded speech.  On a
successful extraction the draft is appended to the sheet directly; the
response carries no TwiML (a bare 200), modelled as an empty action
list. -/
def transcriptionCallback (st : ServerState)
    (transcriptionText : Option String) (ext : ExtractOutcome)
    (appendOk : Bool) : ServerState × List Action :=
  if transcriptionText.getD "" = "" then (st, [])
  else
    match ext with
    | .success d =>
      ({ st with sheet := if appendOk then st.sheet ++ [d] else st.sheet },
       [])
    | .notATask => (st, [])
    | .thrown => (st, [])

/-- Handler `POST /voice/morning-choice` (`src/server.js` lines 236-261). -/
def morningChoice (digits : Option String) : List Action :=
  if digits == some "1" then
    [.say tellMeTaskMsg,
     .record "/voice/process-task" (some "/voice/transcription-callback")]
  else
    [.say "Have a great day!", .hangup]

/-- Handler `POST /voice/morning-briefing` (`src/server.js` lines 193-234), as a
function of the due-task list it computes. -/
def morningBriefing (dueTasks : List Task) : List Action :=
  if dueTasks.length = 0 then
    [.say noTasksMsg, .hangup]
  else
    [.say (composeBriefing dueTasks),
     .gather "/voice/morning-choice" [press1Msg],
     .say alrightProductiveMsg, .hangup]

/-- Trigger `makeMorningCall` (`src/server.js` lines 168-190): returns the
webhook URL of the originated call, or `none` when the call is skipped
because no task is due. -/
def makeMorningCall (allTasks : List Task) (now : Int) : Option String :=
  if (computeDueTasks allTasks now 5).length = 0 then none
  else some "/voice/morning-briefing"

/-! ### Extraction client: JSON location and parsing

`extractTaskFromSpeech` (`src/server.js` lines 130-162) trims the raw
model reply, matches it against the greedy regular expression
`/\x7b[\s\S]*\x7d/` — whose match, when one exists, runs from the first
opening brace to the last closing brace of the string — and feeds the
match to `JSON.parse`; when the regex does not match it throws
`Could not parse AI response`, and when `JSON.parse` rejects the match it
throws a syntax error.  Both throws surface to the caller as the same
caught failure, distinct from a successful parse of the `{"error": ...}`
object the service itself returns.  `JSON.parse` is modelled by a standard
fuel-indexed JSON parser; number values are kept as their lexemes, which
is all the program observes. -/

def openBrace : Char := '\x7b'

def closeBrace : Char := '\x7d'

/-- A JSON value; numbers are kept as their source lexemes. -/
inductive Json where
  | null
  | jbool (b : Bool)
  | jnum (lexeme : String)
  | jstr (s : String)
  | jarr (items : List Json)
  | jobj (members : List (String × Json))

def isJsonWs (c : Char) : Bool :=
  c == ' ' || c == '\n' || c == '\r' || c == '\t'

def skipWs (cs : List Char) : List Char := cs.dropWhile isJsonWs

def hexVal (c : Char) : Option Nat :=
  if c.isDigit then some (c.toNat - 48)
  else if 'a' ≤ c && c ≤ 'f' then some (c.toNat - 87)
  else if 'A' ≤ c && c ≤ 'F' then some (c.toNat - 55)
  else none

/-- Parse the body of a JSON string literal (the opening quote already
consumed), handling the JSON escape sequences. -/
def parseStrBody : Nat → List Char → List Char → Option (String × List Char)
  | 0, _, _ => none
  | _ + 1, _, [] => none
  | fuel + 1, acc, c :: rest =>
    if c = '"' then some (⟨acc.reverse⟩, rest)
    else if c = '\\' then
      match rest with
      | [] => none
      | e :: rest2 =>
        if e = '"' then parseStrBody fuel ('"' :: acc) rest2
        else if e = '\\' then parseStrBody fuel ('\\' :: acc) rest2
        else if e = '/' then parseStrBody fuel ('/' :: acc) rest2
        else if e = 'b' then parseStrBody fuel ('\x08' :: acc) rest2
        else if e = 'f' then parseStrBody fuel ('\x0c' :: acc) rest2
        else if e = 'n' then parseStrBody fuel ('\n' :: acc) rest2
        else if e = 'r' then parseStrBody fuel ('\x0d' :: acc) rest2
        else if e = 't' then parseStrBody fuel ('\t' :: acc) rest2
        else if e = 'u' then
          match rest2 with
          | h1 :: h2 :: h3 :: h4 :: rest3 =>
            match hexVal h1, hexVal h2, hexVal h3, hexVal h4 with
            | some a, some b, some c2, some d2 =>
              if h : (((a * 16 + b) * 16 + c2) * 16 + d2).isValidChar then
                parseStrBody fuel (Char.ofNatAux _ h :: acc) rest3
              else parseStrBody fuel ('�' :: acc) rest3
            | _, _, _, _ => none
          | _ => none
        else none
    else if c.toNat < 32 then none
    else parseStrBody fuel (c :: acc) rest

/-- The fractional part of a JSON number (possibly empty). -/
def parseFracPart (cs : List Char) : Option (List Char × List Char) :=
  match cs with
  | '.' :: r =>
    let ds := r.takeWhile Char.isDigit
    if ds = [] then none else some ('.' :: ds, r.dropWhile Char.isDigit)
  | _ => some ([], cs)

/-- The exponent part of a JSON number (possibly empty). -/
def parseExpPart (cs : List Char) : Option (List Char × List Char) :=
  match cs with
  | c :: r =>
    if c = 'e' || c = 'E' then
      let (sgn, r2) :=
        match r with
        | s :: r' => if s = '+' || s = '-' then ([s], r') else ([], r)
        | [] => ([], r)
      let ds := r2.takeWhile Char.isDigit
      if ds = [] then none
      else some (c :: (sgn ++ ds), r2.dropWhile Char.isDigit)
    else some ([], cs)
  | [] => some ([], [])

/-- A JSON number token: `-? (0 | [1-9][0-9]*) frac? exp?`. -/
def parseNumberTok (cs : List Char) : Option (String × List Char) :=
  let (neg, cs1) :=
    match cs with
    | '-' :: r => (['-'], r)
    | _ => (([] : List Char), cs)
  match cs1 with
  | [] => none
  | c :: r =>
    if !c.isDigit then none
    else
      let (intPart, rest1) :=
        if c = '0' then ([c], r)
        else (c :: r.takeWhile Char.isDigit, r.dropWhile Char.isDigit)
      match parseFracPart rest1 with
      | none => none
      | some (frac, rest2) =>
        match parseExpPart rest2 with
        | none => none
        | some (expo, rest3) =>
          some (⟨neg ++ intPart ++ frac ++ expo⟩, rest3)

mutual

/-- Parse one JSON value as a prefix of the input, returning the rest. -/
def parseVal : Nat → List Char → Option (Json × List Char)
  | 0, _ => none
  | fuel + 1, cs0 =>
    match skipWs cs0 with
    | [] => none
    | c :: rest =>
      if c = openBrace then
        match skipWs rest with
        | d :: rest2 =>
          if d = closeBrace then some (.jobj [], rest2)
          else parseMembers fuel (d :: rest2) []
        | [] => none
      else if c = '[' then
        match skipWs rest with
        | d :: rest2 =>
          if d = ']' then some (.jarr [], rest2)
          else parseItems fuel (d :: rest2) []
        | [] => none
      else if c = '"' then
        match parseStrBody (rest.length + 1) [] rest with
        | some (s, rest2) => some (.jstr s, rest2)
        | none => none
      else if c = 't' then
        match rest with
        | 'r' :: 'u' :: 'e' :: rest2 => some (.jbool true, rest2)
        | _ => none
      else if c = 'f' then
        match rest with
        | 'a' :: 'l' :: 's' :: 'e' :: rest2 => some (.jbool false, rest2)
        | _ => none
      else if c = 'n' then
        match rest with
        | 'u' :: 'l' :: 'l' :: rest2 => some (.null, rest2)
        | _ => none
      else
        match parseNumberTok (c :: rest) with
        | some (tok, rest2) => some (.jnum tok, rest2)
        | none => none

/-- Parse the members of a JSON object after at least one member is known
to follow. -/
def parseMembers : Nat → List Char → List (String × Json) →
    Option (Json × List Char)
  | 0, _, _ => none
  | fuel + 1, cs, acc =>
    match skipWs cs with
    | '"' :: rest =>
      match parseStrBody (rest.length + 1) [] rest with
      | some (k, rest2) =>
        match skipWs rest2 with
        | ':' :: rest3 =>
          match parseVal fuel rest3 with
          | some (v, rest4) =>
            match skipWs rest4 with
            | [] => none
            | d :: rest5 =>
              if d = ',' then parseMembers fuel rest5 (acc ++ [(k, v)])
              else if d = closeBrace then
                some (.jobj (acc ++ [(k, v)]), rest5)
              else none
          | none => none
        | _ => none
      | none => none
    | _ => none

/-- Parse the items of a JSON array after at least one item is known to
follow. -/
def parseItems : Nat → List Char → List Json → Option (Json × List Char)
  | 0, _, _ => none
  | fuel + 1, cs, acc =>
    match parseVal fuel cs with
    | some (v, rest) =>
      match skipWs rest with
      | ',' :: rest2 => parseItems fuel rest2 (acc ++ [v])
      | ']' :: rest2 => some (.jarr (acc ++ [v]), rest2)
      | _ => none
    | none => none

end

/-- JavaScript `JSON.parse` on a character list: one JSON value surrounded only by
whitespace.  Every nested parse consumes at least one character before
recursing, so `cs.length + 1` fuel never runs out on well-formed input. -/
def jsonParseL (cs : List Char) : Option Json :=
  match parseVal (cs.length + 1) cs with
  | some (v, rest) => if skipWs rest = [] then some v else none
  | none => none

def jsonParse (s : String) : Option Json := jsonParseL s.data

def notOpenBrace (c : Char) : Bool := !(c == openBrace)

def notCloseBrace (c : Char) : Bool := !(c == closeBrace)

/-- Characters stripped by `String.prototype.trim` (the ASCII white-space
subset actually produced by the model reply). -/
def isTrimWs (c : Char) : Bool :=
  c == ' ' || c == '\n' || c == '\r' || c == '\t' || c == '\x0b' || c == '\x0c'

/-- JavaScript `text.trim()` on a character list. -/
def trimL (cs : List Char) : List Char :=
  ((cs.dropWhile isTrimWs).reverse.dropWhile isTrimWs).reverse

/-- Given the suffix of the input that starts at its first opening brace
(or `[]` when there is none), cut the match of `/\x7b[\s\S]*\x7d/` off at
the last closing brace. -/
def braceTail (cs : List Char) : Option (List Char) :=
  if cs = [] then none
  else
    let t := cs.reverse.dropWhile notCloseBrace
    if t = [] then none else some t.reverse

/-- The match of the greedy regex `/\x7b[\s\S]*\x7d/`: the span from the
first opening brace to the last closing brace, when the latter follows the
former; `none` when the regex does not match. -/
def braceSpanL (cs : List Char) : Option (List Char) :=
  braceTail (cs.dropWhile notOpenBrace)

/-- The pure core of `extractTaskFromSpeech` applied to the raw reply
text: trim, match the greedy brace regex, `JSON.parse` the match.
`none` models the two thrown failures (no match, or a match `JSON.parse`
rejects). -/
def extractParseL (cs : List Char) : Option Json :=
  match braceSpanL (trimL cs) with
  | some span => jsonParseL span
  | none => none

def extractParse (reply : String) : Option Json := extractParseL reply.data

/-- Property lookup on a parsed JSON object, last occurrence of the key
winning as in `JSON.parse`. -/
def jlookup (kvs : List (String × Json)) (k : String) : Option Json :=
  kvs.foldl (fun acc p => if p.1 = k then some p.2 else acc) none

/-- Is the mantissa of a number lexeme all zeroes (so the number is 0)? -/
def numIsZero (tok : String) : Bool :=
  (tok.data.takeWhile (fun c => !(c == 'e' || c == 'E'))).all
    (fun c => !('1' ≤ c && c ≤ '9'))

/-- JavaScript truthiness of a parsed JSON value, as tested by
`if (taskData.error)`. -/
def jsTruthy : Json → Bool
  | .null => false
  | .jbool b => b
  | .jstr s => !(s == "")
  | .jnum tok => !(numIsZero tok)
  | .jarr _ => true
  | .jobj _ => true

/-- The three-way outcome of the extraction reply as the caller observes
it: a thrown parse failure, the truthy `error` member sent by the service, or a
task object. -/
inductive ExtractClass where
  | parseFailure
  | errorSignal
  | taskResult (j : Json)

/-- Classify a raw reply the way `process-speech` does: a parse failure is
caught as a thrown error, a parsed object with a truthy `error` member is
the not-a-task signal of the service, anything else is used as the draft. -/
def classifyExtract (reply : String) : ExtractClass :=
  match extractParse reply with
  | none => .parseFailure
  | some j =>
    match j with
    | .jobj kvs =>
      match jlookup kvs "error" with
      | some v => if jsTruthy v then .errorSignal else .taskResult j
      | none => .taskResult j
    | _ => .taskResult j

/-- Modelled from the spec (§4.2 Parsing): "the client must locate and
parse the first well-formed JSON object in the reply".  This is the
specification-side definition used to compare the claimed behaviour with
the `braceSpanL` behaviour of the code: try, at each successive start
position, to parse a JSON object as a prefix of the remaining input. -/
def objAt (cs : List Char) : Option Json :=
  match cs with
  | c :: _ =>
    if c = openBrace then
      match parseVal (cs.length + 1) cs with
      | some (.jobj kvs, _) => some (.jobj kvs)
      | _ => none
    else none
  | [] => none

/-- Modelled from the spec (§4.2 Parsing): the first well-formed JSON
object embedded anywhere in the reply. -/
def firstJsonObjectL : List Char → Option Json
  | [] => none
  | c :: rest =>
    match objAt (c :: rest) with
    | some j => some j
    | none => firstJsonObjectL rest

def firstJsonObject (s : String) : Option Json := firstJsonObjectL s.data

/-! ### Scheduler lemmas and claims -/

theorem mem_computeDueTasks {t : Task} {tasks : List Task} {now : Int}
    {days : Nat} :
    t ∈ computeDueTasks tasks now days ↔
      t ∈ tasks ∧ dueFilter now (now + days * msPerDay) t = true := by
  unfold computeDueTasks
  rw [(List.perm_insertionSort TaskLe _).mem_iff, List.mem_filter]

theorem parseDate_empty : parseDate "" = none := rfl

theorem orderedInsert_congr {α : Type} (r s : α → α → Prop)
    [DecidableRel r] [DecidableRel s] (a : α) (l : List α)
    (h : ∀ b ∈ l, r a b ↔ s a b) :
    List.orderedInsert r a l = List.orderedInsert s a l := by
  induction l with
  | nil => rfl
  | cons b t ih =>
    rw [List.orderedInsert, List.orderedInsert]
    by_cases hr : r a b
    · rw [if_pos hr, if_pos ((h b (List.mem_cons_self b t)).mp hr)]
    · rw [if_neg hr,
        if_neg (fun hs => hr ((h b (List.mem_cons_self b t)).mpr hs)),
        ih (fun c hc => h c (List.mem_cons_of_mem b hc))]

/-- Two sort relations that agree on the members of a list sort it
identically (the sort only ever compares members). -/
theorem insertionSort_congr {α : Type} (r s : α → α → Prop)
    [DecidableRel r] [DecidableRel s] (l : List α)
    (h : ∀ a ∈ l, ∀ b ∈ l, r a b ↔ s a b) :
    l.insertionSort r = l.insertionSort s := by
  induction l with
  | nil => rfl
  | cons a t ih =>
    simp only [List.insertionSort]
    rw [ih (fun x hx y hy =>
      h x (List.mem_cons_of_mem a hx) y (List.mem_cons_of_mem a hy))]
    apply orderedInsert_congr
    intro b hb
    have hb2 : b ∈ t := (List.perm_insertionSort s t).mem_iff.mp hb
    exact h a (List.mem_cons_self a t) b (List.mem_cons_of_mem a hb2)

/-- Away from the two inherited object keys, the program-side priority
lookup is the numeric specification rank. -/
theorem priorityVal_good {p : String} (hp1 : jsToLower p ≠ "__proto__")
    (hp2 : jsToLower p ≠ "constructor") :
    priorityVal p = .num (priorityRank p) := by
  simp only [priorityVal, priorityRank]
  split_ifs <;> simp_all

theorem sortCompare_good {a b : Task}
    (ha1 : jsToLower a.priority ≠ "__proto__")
    (ha2 : jsToLower a.priority ≠ "constructor")
    (hb1 : jsToLower b.priority ≠ "__proto__")
    (hb2 : jsToLower b.priority ≠ "constructor") :
    sortCompare a b =
      if priorityRank a.priority = priorityRank b.priority
      then dueMs a - dueMs b
      else (priorityRank a.priority : Int) - priorityRank b.priority := by
  unfold sortCompare
  rw [priorityVal_good ha1 ha2, priorityVal_good hb1 hb2]

/-- Away from the inherited keys the comparator order is the consistent
rank-then-due-date order. -/
theorem taskLe_iff_good {a b : Task}
    (ha1 : jsToLower a.priority ≠ "__proto__")
    (ha2 : jsToLower a.priority ≠ "constructor")
    (hb1 : jsToLower b.priority ≠ "__proto__")
    (hb2 : jsToLower b.priority ≠ "constructor") :
    TaskLe a b ↔ TaskLeC a b := by
  unfold TaskLe TaskLeC
  rw [sortCompare_good ha1 ha2 hb1 hb2]
  split_ifs with h <;> omega

/-- Claim C3 counterexample: the claim asserts rank-non-decreasing output
for EVERY input.  A priority string hitting an inherited object key
defeats it: `priorityOrder["__proto__"]` is `Object.prototype`, `?? 1`
keeps it, the comparator returns `NaN` against the numeric rank of
`High`, and `SortCompare` coerces `NaN` to `+0`, so the stable sort keeps
the original order.  With a `__proto__`-priority task listed before a
`High` task, both due in the window, the output is strictly DECREASING in
the claimed rank (Medium = 1 before High = 0). -/
theorem C3_counterexample :
    computeDueTasks
        [⟨2, "File taxes", "__proto__", "Not Started", "2025-02-11"⟩,
         ⟨3, "Ship release", "High", "Not Started", "2025-02-12"⟩]
        1739145600000 5 =
      [⟨2, "File taxes", "__proto__", "Not Started", "2025-02-11"⟩,
       ⟨3, "Ship release", "High", "Not Started", "2025-02-12"⟩] ∧
    priorityRank "__proto__" = 1 ∧ priorityRank "High" = 0 ∧
    ¬ priorityRank "__proto__" ≤ priorityRank "High" :=
  ⟨by decide, by decide, by decide, by decide⟩

/-- Claim C3 (amended): on every input task list in which no priority is
case-insensitively `__proto__` or `constructor` — the two lowercase keys
the object-literal lookup inherits from `Object.prototype` — the output
of `computeDueTasks` is ordered non-decreasing by priority rank
(High = 0, Medium = 1, Low = 2) with ties non-decreasing by due date; and
the lookup sends `High` / `Medium` / `Low` to 0 / 1 / 2 and any other
priority string except those two inherited keys to the Medium value. -/
theorem C3_dueTasksOrdered :
    (∀ (tasks : List Task) (now : Int) (days : Nat),
      (∀ t ∈ tasks, jsToLower t.priority ≠ "__proto__" ∧
        jsToLower t.priority ≠ "constructor") →
      (computeDueTasks tasks now days).Pairwise (fun a b =>
        priorityRank a.priority ≤ priorityRank b.priority ∧
          (priorityRank a.priority = priorityRank b.priority →
            dueMs a ≤ dueMs b))) ∧
    priorityVal "High" = .num 0 ∧ priorityVal "Medium" = .num 1 ∧
    priorityVal "Low" = .num 2 ∧
    (∀ p : String, jsToLower p ≠ "high" → jsToLower p ≠ "medium" →
      jsToLower p ≠ "low" → jsToLower p ≠ "__proto__" →
      jsToLower p ≠ "constructor" →
      priorityVal p = priorityVal "Medium") := by
  refine ⟨?_, by decide, by decide, by decide,
    fun p h1 h2 h3 h4 h5 => by
      simp [priorityVal, h1, h2, h3, h4, h5]; decide⟩
  intro tasks now days hgood
  have hmem : ∀ t ∈ tasks.filter (dueFilter now (now + days * msPerDay)),
      jsToLower t.priority ≠ "__proto__" ∧
        jsToLower t.priority ≠ "constructor" :=
    fun t ht => hgood t (List.mem_filter.mp ht).1
  unfold computeDueTasks
  rw [insertionSort_congr TaskLe TaskLeC _ (fun a ha b hb =>
    taskLe_iff_good (hmem a ha).1 (hmem a ha).2 (hmem b hb).1
      (hmem b hb).2)]
  have hs : List.Sorted TaskLeC
      ((tasks.filter (dueFilter now (now + days * msPerDay))).insertionSort
        TaskLeC) :=
    List.sorted_insertionSort TaskLeC _
  refine hs.imp ?_
  intro a b h
  unfold TaskLeC at h
  omega

/-- Claim C3 witness: a concrete inherited-key-free input is sorted
`[High, Low]`-first as claimed, and the default clause applied to the
unrecognized priority string `Urgent!` gives the Medium value. -/
theorem C3_witness :
    (∀ t ∈ [(⟨2, "A", "Low", "Not Started", "2025-02-12"⟩ : Task),
        ⟨3, "B", "High", "Not Started", "2025-02-11"⟩],
      jsToLower t.priority ≠ "__proto__" ∧
        jsToLower t.priority ≠ "constructor") ∧
    (computeDueTasks
        [⟨2, "A", "Low", "Not Started", "2025-02-12"⟩,
         ⟨3, "B", "High", "Not Started", "2025-02-11"⟩]
        1739145600000 5).Pairwise (fun a b =>
      priorityRank a.priority ≤ priorityRank b.priority ∧
        (priorityRank a.priority = priorityRank b.priority →
          dueMs a ≤ dueMs b)) ∧
    (jsToLower "Urgent!" ≠ "high") ∧ (jsToLower "Urgent!" ≠ "medium") ∧
    (jsToLower "Urgent!" ≠ "low") ∧ (jsToLower "Urgent!" ≠ "__proto__") ∧
    (jsToLower "Urgent!" ≠ "constructor") ∧
    priorityVal "Urgent!" = priorityVal "Medium" :=
  ⟨by decide,
    C3_dueTasksOrdered.1 _ 1739145600000 5 (by decide),
    by decide, by decide, by decide, by decide, by decide,
    C3_dueTasksOrdered.2.2.2.2 "Urgent!" (by decide) (by decide)
      (by decide) (by decide) (by decide)⟩

/-- Claim C4: a task whose status is case-insensitively `completed` or
`done` is excluded from the result of `computeDueTasks`, whatever its due
date and whatever the window parameters. -/
theorem C4_completedExcluded :
    ∀ (tasks : List Task) (now : Int) (days : Nat) (t : Task),
      (jsToLower t.status = "completed" ∨ jsToLower t.status = "done") →
      t ∉ computeDueTasks tasks now days := by
  intro tasks now days t h hmem
  have hsd : statusDone t = true := by
    unfold statusDone
    rcases h with h | h <;> simp [h]
  have hf := (mem_computeDueTasks.mp hmem).2
  simp [dueFilter, hsd] at hf

/-- Claim C4 witness: a `Done` task due inside the window (reference
instant midnight 2025-02-10, default five-day window) is excluded. -/
theorem C4_witness :
    ((⟨2, "Ship it", "High", "Done", "2025-02-12"⟩ : Task).status |> jsToLower)
        = "done" ∧
      (⟨2, "Ship it", "High", "Done", "2025-02-12"⟩ : Task) ∉
        computeDueTasks [⟨2, "Ship it", "High", "Done", "2025-02-12"⟩]
          1739145600000 5 :=
  ⟨by decide,
    C4_completedExcluded _ 1739145600000 5 _ (Or.inr (by decide))⟩

/-- Claim C5: a non-completed task whose due date parses is in the result
of `computeDueTasks` exactly when its due instant lies in the inclusive
window `[now, now + days * 86400000]`; the window defaults to 5 days when
no `days` argument is supplied. -/
theorem C5_windowInclusive :
    (∀ (tasks : List Task) (now : Int) (days : Nat) (t : Task) (due : Int),
      t ∈ tasks → statusDone t = false → parseDate t.dueDate = some due →
      (t ∈ computeDueTasks tasks now days ↔
        now ≤ due ∧ due ≤ now + days * msPerDay)) ∧
    (∀ (tasks : List Task) (now : Int),
      computeDueTasks tasks now = computeDueTasks tasks now 5) := by
  refine ⟨?_, fun tasks now => rfl⟩
  intro tasks now days t due hmem hstat hparse
  have hne : t.dueDate ≠ "" := by
    intro h
    rw [h, parseDate_empty] at hparse
    cases hparse
  rw [mem_computeDueTasks]
  constructor
  · rintro ⟨-, hf⟩
    simpa [dueFilter, hstat, hne, hparse] using hf
  · intro hw
    exact ⟨hmem, by simpa [dueFilter, hstat, hne, hparse] using hw⟩

/-- Claim C5 witness: a task due 2025-02-12, reference instant midnight
2025-02-10, five-day window: the task is reported due. -/
theorem C5_witness :
    ((⟨2, "Review PRs", "Medium", "Not Started", "2025-02-12"⟩ : Task) ∈
        [(⟨2, "Review PRs", "Medium", "Not Started", "2025-02-12"⟩ : Task)]) ∧
      statusDone ⟨2, "Review PRs", "Medium", "Not Started", "2025-02-12"⟩
        = false ∧
      parseDate "2025-02-12" = some 1739318400000 ∧
      ((⟨2, "Review PRs", "Medium", "Not Started", "2025-02-12"⟩ : Task) ∈
          computeDueTasks
            [⟨2, "Review PRs", "Medium", "Not Started", "2025-02-12"⟩]
            1739145600000 5 ↔
        (1739145600000 : Int) ≤ 1739318400000 ∧
          (1739318400000 : Int) ≤ 1739145600000 + 5 * msPerDay) :=
  ⟨by decide, by decide, by decide,
    C5_windowInclusive.1 _ 1739145600000 5 _ 1739318400000 (by decide)
      (by decide) (by decide)⟩

/-- Claim C6: a task whose due-date field is empty, or fails to parse as a
calendar date, is excluded from the result of `computeDueTasks`; the
filter is a total function, so an unparseable date can never abort the
computation. -/
theorem C6_unparseableExcluded :
    ∀ (tasks : List Task) (now : Int) (days : Nat) (t : Task),
      (t.dueDate = "" ∨ parseDate t.dueDate = none) →
      t ∉ computeDueTasks tasks now days := by
  intro tasks now days t h hmem
  have hf := (mem_computeDueTasks.mp hmem).2
  rcases h with h | h
  · simp [dueFilter, h] at hf
  · by_cases hsd : statusDone t
    · simp [dueFilter, hsd] at hf
    · simp [dueFilter, hsd, h] at hf

/-- Claim C6 witness: a task with the unparseable due date `next Friday`
is excluded. -/
theorem C6_witness :
    (parseDate "next Friday" = none) ∧
      (⟨2, "Call bank", "High", "Not Started", "next Friday"⟩ : Task) ∉
        computeDueTasks
          [⟨2, "Call bank", "High", "Not Started", "next Friday"⟩]
          1739145600000 5 :=
  ⟨by decide,
    C6_unparseableExcluded _ 1739145600000 5 _ (Or.inr (by decide))⟩

/-! ### Extraction-client lemmas and claims -/

theorem dropWhile_dropWhile_of_imp {α : Type} {p q : α → Bool}
    (h : ∀ c, p c = true → q c = true) :
    ∀ l : List α, (l.dropWhile p).dropWhile q = l.dropWhile q
  | [] => rfl
  | c :: t => by
    by_cases hp : p c
    · rw [List.dropWhile_cons_of_pos hp, dropWhile_dropWhile_of_imp h t,
        List.dropWhile_cons_of_pos (h c hp)]
    · rw [List.dropWhile_cons_of_neg hp]

theorem dropWhile_append_of_ne_nil {α : Type} {p : α → Bool}
    {l1 l2 : List α} (h : l1.dropWhile p ≠ []) :
    (l1 ++ l2).dropWhile p = l1.dropWhile p ++ l2 := by
  rw [List.dropWhile_append]
  simp [h]

theorem trimWs_notOpen {c : Char} (h : isTrimWs c = true) :
    notOpenBrace c = true := by
  simp [isTrimWs] at h
  rcases h with ((((h | h) | h) | h) | h) | h <;> subst h <;> decide

theorem trimWs_notClose {c : Char} (h : isTrimWs c = true) :
    notCloseBrace c = true := by
  simp [isTrimWs] at h
  rcases h with ((((h | h) | h) | h) | h) | h <;> subst h <;> decide

theorem braceTail_cons (c : Char) (cs : List Char) :
    braceTail (c :: cs) =
      (if (c :: cs).reverse.dropWhile notCloseBrace = [] then none
       else some ((c :: cs).reverse.dropWhile notCloseBrace).reverse) := by
  unfold braceTail
  rw [if_neg (List.cons_ne_nil c cs)]

/-- Appending trailing `trim`-whitespace does not change the regex
match. -/
theorem braceTail_append_ws {xs tail : List Char}
    (hw : ∀ c ∈ tail, isTrimWs c = true) :
    braceTail (xs ++ tail) = braceTail xs := by
  have hwClose : ∀ c ∈ tail.reverse, notCloseBrace c = true := by
    intro c hc
    exact trimWs_notClose (hw c (List.mem_reverse.mp hc))
  cases xs with
  | nil =>
    simp only [List.nil_append]
    have h0 : tail.reverse.dropWhile notCloseBrace = [] := by
      rw [List.dropWhile_eq_nil_iff]
      exact hwClose
    unfold braceTail
    simp [h0]
  | cons x xs' =>
    have h1 : (x :: (xs' ++ tail)).reverse.dropWhile notCloseBrace =
        (x :: xs').reverse.dropWhile notCloseBrace := by
      rw [show x :: (xs' ++ tail) = (x :: xs') ++ tail from rfl,
        List.reverse_append, List.dropWhile_append_of_pos hwClose]
    simp only [List.cons_append]
    rw [braceTail_cons, braceTail_cons, h1]

/-- The first stage of the match commutes with left-trimming. -/
theorem braceSpanL_leftTrim (cs : List Char) :
    braceSpanL (cs.dropWhile isTrimWs) = braceSpanL cs := by
  unfold braceSpanL
  rw [dropWhile_dropWhile_of_imp (fun c => trimWs_notOpen) cs]

/-- Right-trimming does not change the match either. -/
theorem braceSpanL_rightTrim (a : List Char) :
    braceSpanL ((a.reverse.dropWhile isTrimWs).reverse) = braceSpanL a := by
  have hdecomp : a = (a.reverse.dropWhile isTrimWs).reverse ++
      (a.reverse.takeWhile isTrimWs).reverse := by
    calc a = a.reverse.reverse := (List.reverse_reverse a).symm
    _ = (a.reverse.takeWhile isTrimWs ++
          a.reverse.dropWhile isTrimWs).reverse := by
        rw [List.takeWhile_append_dropWhile]
    _ = _ := by rw [List.reverse_append]
  have hws : ∀ c ∈ (a.reverse.takeWhile isTrimWs).reverse,
      isTrimWs c = true := by
    intro c hc
    exact List.mem_takeWhile_imp (List.mem_reverse.mp hc)
  conv_rhs => rw [hdecomp]
  set core := (a.reverse.dropWhile isTrimWs).reverse
  set tail := (a.reverse.takeWhile isTrimWs).reverse
  unfold braceSpanL
  rcases h : core.dropWhile notOpenBrace with _ | ⟨c, rest⟩
  · have hcore : ∀ x ∈ core, notOpenBrace x = true :=
      List.dropWhile_eq_nil_iff.mp h
    have h2 : (core ++ tail).dropWhile notOpenBrace = [] := by
      rw [List.dropWhile_append_of_pos hcore, List.dropWhile_eq_nil_iff]
      intro x hx
      exact trimWs_notOpen (hws x hx)
    rw [h2]
  · rw [dropWhile_append_of_ne_nil (by rw [h]; exact List.cons_ne_nil c rest),
      h, braceTail_append_ws hws]

/-- Trimming the reply does not change the regex match: the stripped characters
are whitespace, so they lie strictly outside the span from the first
opening brace to the last closing brace. -/
theorem braceSpanL_trimL (cs : List Char) :
    braceSpanL (trimL cs) = braceSpanL cs := by
  unfold trimL
  rw [braceSpanL_rightTrim, braceSpanL_leftTrim]

/-- The regex match on a reply made of a braced body wrapped in noise:
with no opening brace in the prefix and no closing brace in the suffix,
the greedy match is exactly the braced body. -/
theorem braceSpanL_of_decomp {pre mid post : List Char}
    (hpre : ∀ c ∈ pre, c ≠ openBrace)
    (hpost : ∀ c ∈ post, c ≠ closeBrace) :
    braceSpanL (pre ++ (openBrace :: mid ++ [closeBrace]) ++ post) =
      some (openBrace :: mid ++ [closeBrace]) := by
  have hpre' : ∀ c ∈ pre, notOpenBrace c = true := by
    intro c hc
    simp [notOpenBrace, hpre c hc]
  have hpost' : ∀ c ∈ post.reverse, notCloseBrace c = true := by
    intro c hc
    simp [notCloseBrace, hpost c (List.mem_reverse.mp hc)]
  unfold braceSpanL
  rw [List.append_assoc, List.dropWhile_append_of_pos hpre']
  have h1 : ((openBrace :: mid ++ [closeBrace]) ++ post).dropWhile
      notOpenBrace = openBrace :: (mid ++ [closeBrace] ++ post) := by
    simp only [List.cons_append]
    rw [List.dropWhile_cons_of_neg (by simp [notOpenBrace])]
  rw [h1]
  have h2 : (openBrace :: (mid ++ [closeBrace] ++ post)).reverse.dropWhile
      notCloseBrace = closeBrace :: (mid.reverse ++ [openBrace]) := by
    have e1 : (openBrace :: (mid ++ [closeBrace] ++ post)).reverse =
        post.reverse ++ (closeBrace :: (mid.reverse ++ [openBrace])) := by
      simp
    rw [e1, List.dropWhile_append_of_pos hpost',
      List.dropWhile_cons_of_neg (by decide)]
  rw [braceTail_cons, h2, if_neg (List.cons_ne_nil _ _)]
  simp

theorem mem_trimL {c : Char} {cs : List Char} (h : c ∈ trimL cs) :
    c ∈ cs := by
  unfold trimL at h
  rw [List.mem_reverse] at h
  have h2 : c ∈ (cs.dropWhile isTrimWs).reverse :=
    List.Sublist.mem h (List.dropWhile_sublist _)
  rw [List.mem_reverse] at h2
  exact List.Sublist.mem h2 (List.dropWhile_sublist _)

/-- Claim C2 counterexample: the claim says the client locates and parses
the FIRST well-formed JSON object in the reply.  On the reply
`{"a":1} {"b":2}` a first well-formed object exists (`{"a":1}`), but the
greedy regex spans from the first opening brace to the LAST closing brace,
so `JSON.parse` receives `{"a":1} {"b":2}` and rejects it: the client
throws instead of returning the first object. -/
theorem C2_counterexample :
    firstJsonObject "\x7b\"a\":1\x7d \x7b\"b\":2\x7d" =
      some (.jobj [("a", .jnum "1")]) ∧
    extractParse "\x7b\"a\":1\x7d \x7b\"b\":2\x7d" = none :=
  ⟨rfl, rfl⟩

/-- Claim C2 (amended): the extraction client takes the span of the
trimmed reply from its first opening brace to its last closing brace and
`JSON.parse`s it.  When the reply is a single well-formed JSON object
wrapped in noise that contains no opening brace before it and no closing
brace after it, the client returns that object (which is then also the
first well-formed object of the reply); when the reply contains no
opening brace at all, the regex cannot match and the client fails with
the parse error; and the parse failure is classified as a thrown error,
distinct from the `{"error": ...}` signal of the service itself, which parses
successfully and is classified as the not-a-task signal. -/
theorem C2_greedySpanParse :
    (∀ (pre mid post : List Char) (v : Json),
      (∀ c ∈ pre, c ≠ openBrace) → (∀ c ∈ post, c ≠ closeBrace) →
      jsonParseL (openBrace :: mid ++ [closeBrace]) = some v →
      extractParseL (pre ++ (openBrace :: mid ++ [closeBrace]) ++ post) =
        some v) ∧
    (∀ cs : List Char, openBrace ∉ cs → extractParseL cs = none) ∧
    (∀ reply : String, extractParse reply = none →
      classifyExtract reply = .parseFailure) ∧
    (∀ (reply : String) (kvs : List (String × Json)) (v : Json),
      extractParse reply = some (.jobj kvs) →
      jlookup kvs "error" = some v → jsTruthy v = true →
      classifyExtract reply = .errorSignal) := by
  refine ⟨?_, ?_, ?_, ?_⟩
  · intro pre mid post v hpre hpost hparse
    unfold extractParseL
    rw [braceSpanL_trimL, braceSpanL_of_decomp hpre hpost]
    exact hparse
  · intro cs h
    unfold extractParseL
    have h1 : (trimL cs).dropWhile notOpenBrace = [] := by
      rw [List.dropWhile_eq_nil_iff]
      intro x hx
      have : x ≠ openBrace := fun hEq => h (hEq ▸ mem_trimL hx)
      simp [notOpenBrace, this]
    unfold braceSpanL
    rw [h1]
    rfl
  · intro reply h
    simp [classifyExtract, h]
  · intro reply kvs v h hl ht
    simp [classifyExtract, h, hl, ht]

/-- Claim C2 witness: a realistic wrapped reply — prose, one JSON object,
prose — is parsed to that object; and a brace-free reply fails. -/
theorem C2_witness :
    (∀ c ∈ ("Sure, here is the JSON you asked for: ").data,
      c ≠ openBrace) ∧
    (∀ c ∈ (" Let me know if you need anything else!").data,
      c ≠ closeBrace) ∧
    jsonParseL (openBrace ::
        ("\"error\":\"Could not understand task\"").data ++ [closeBrace]) =
      some (.jobj [("error", .jstr "Could not understand task")]) ∧
    extractParseL (("Sure, here is the JSON you asked for: ").data ++
        (openBrace :: ("\"error\":\"Could not understand task\"").data ++
          [closeBrace]) ++
        (" Let me know if you need anything else!").data) =
      some (.jobj [("error", .jstr "Could not understand task")]) ∧
    openBrace ∉ ("no json here").data ∧
    extractParseL ("no json here").data = none :=
  ⟨by decide, by decide, rfl,
    C2_greedySpanParse.1 _ _ _ _ (by decide) (by decide) rfl,
    by decide,
    C2_greedySpanParse.2.1 ("no json here").data (by decide)⟩

/-! ### Dialog claims -/

/-- Claim C1 counterexample: the claim asserts that EVERY turn delivering
a speech transcript of a task first stores the draft as pending and
presents a yes/no confirmation before anything reaches the task store.
On the post-briefing press-1 branch the transcript arrives at
`/voice/transcription-callback`, which appends the extracted draft to the
sheet in that same turn: the pending slot is never written, and the
response (a bare 200) presents no confirmation choice at all. -/
theorem C1_counterexample :
    transcriptionCallback ⟨none, []⟩ (some "Buy milk on Friday")
        (.success ⟨"Buy milk", "Medium", "Not Started", "2025-02-14"⟩)
        true =
      (⟨none, [⟨"Buy milk", "Medium", "Not Started", "2025-02-14"⟩]⟩, []) :=
  rfl

/-- Claim C1 (amended): on the speech-gather path — the
`/voice/process-speech` turn of the inbound greeting — a successfully
extracted draft is stored as
pending and read back with a yes/no confirmation gather, and the handler
appends nothing to the task store in that turn; on the recording path the
`/voice/transcription-callback` turn instead appends the extracted task
directly, with no pending store and no confirmation. -/
theorem C1_pendingBeforeAppend :
    (∀ (st : ServerState) (tr : String) (d : TaskData), tr ≠ "" →
      processSpeech st (some tr) (.success d) =
        ({ pendingTask := some d, sheet := st.sheet },
         [.say (summaryMsg d),
          .gather "/voice/confirm-task" [confirmPromptMsg],
          .say willSaveMsg, .redirect "/voice/auto-confirm"])) ∧
    (∀ (st : ServerState) (tr : String) (d : TaskData) (ok : Bool),
      tr ≠ "" →
      transcriptionCallback st (some tr) (.success d) ok =
        ({ st with sheet := if ok then st.sheet ++ [d] else st.sheet },
         [])) := by
  constructor
  · intro st tr d h
    simp [processSpeech, h]
  · intro st tr d ok h
    simp [transcriptionCallback, h]

/-- Claim C1 witness: a concrete `process-speech` turn stores the draft as
pending and presents the confirmation, leaving the sheet untouched. -/
theorem C1_witness :
    ("Call the dentist tomorrow" ≠ "") ∧
      processSpeech ⟨none, []⟩ (some "Call the dentist tomorrow")
          (.success ⟨"Call the dentist", "Medium", "Not Started",
            "2025-02-11"⟩) =
        ({ pendingTask := some ⟨"Call the dentist", "Medium", "Not Started",
            "2025-02-11"⟩, sheet := [] },
         [.say (summaryMsg ⟨"Call the dentist", "Medium", "Not Started",
            "2025-02-11"⟩),
          .gather "/voice/confirm-task" [confirmPromptMsg],
          .say willSaveMsg, .redirect "/voice/auto-confirm"]) :=
  ⟨by decide,
    C1_pendingBeforeAppend.1 ⟨none, []⟩ "Call the dentist tomorrow"
      ⟨"Call the dentist", "Medium", "Not Started", "2025-02-11"⟩
      (by decide)⟩

/-- Claim C7: a confirmation turn that carries neither an explicit accept
nor an explicit reject persists the pending draft exactly once (implicit
accept) and ends the call with the pending slot cleared; the no-input
timeout path through `/voice/auto-confirm` does the same. -/
theorem C7_implicitAccept :
    ∀ (st : ServerState) (d : TaskData) (digits speechIn : Option String),
      st.pendingTask = some d →
      confirmedOf digits speechIn = false →
      deniedOf digits speechIn = false →
      confirmTask st digits speechIn true =
        ({ pendingTask := none, sheet := st.sheet ++ [d] },
         [.say savedGreatDayMsg, .hangup]) ∧
      autoConfirm st true =
        ({ pendingTask := none, sheet := st.sheet ++ [d] },
         [.say savedGreatDayMsg, .hangup]) := by
  intro st d digits speechIn hp hc hd
  constructor
  · simp [confirmTask, hp, hc, hd]
  · simp [autoConfirm, hp]

/-- Claim C7 witness: ambiguous speech (`maybe later`) with a pending
draft: the draft is appended once and the call hangs up. -/
theorem C7_witness :
    ((⟨some ⟨"Pay rent", "High", "Not Started", "2025-02-28"⟩, []⟩ :
        ServerState).pendingTask
      = some ⟨"Pay rent", "High", "Not Started", "2025-02-28"⟩) ∧
    confirmedOf none (some "maybe later") = false ∧
    deniedOf none (some "maybe later") = false ∧
    confirmTask ⟨some ⟨"Pay rent", "High", "Not Started", "2025-02-28"⟩, []⟩
        none (some "maybe later") true =
      ({ pendingTask := none,
         sheet := [⟨"Pay rent", "High", "Not Started", "2025-02-28"⟩] },
       [.say savedGreatDayMsg, .hangup]) :=
  ⟨by decide, by decide, by decide,
    (C7_implicitAccept _ _ none (some "maybe later") rfl (by decide)
      (by decide)).1⟩

/-- Claim C8: a confirmation turn carrying an explicit reject (and no
accept signal) clears the pending slot, appends nothing to the task store,
and redirects the dialog back to the speech-capture state. -/
theorem C8_rejectClears :
    ∀ (st : ServerState) (digits speechIn : Option String) (ok : Bool),
      deniedOf digits speechIn = true →
      confirmedOf digits speechIn = false →
      confirmTask st digits speechIn ok =
        ({ pendingTask := none, sheet := st.sheet },
         [.say noProblemMsg, .redirect "/voice/inbound-speech"]) := by
  intro st digits speechIn ok hd hc
  cases hp : st.pendingTask <;> simp [confirmTask, hp, hc, hd]

/-- Claim C8 witness: keypad `2` with a pending draft rejects it: nothing
is appended, the slot is cleared, and the dialog redirects to capture. -/
theorem C8_witness :
    deniedOf (some "2") none = true ∧
    confirmedOf (some "2") none = false ∧
    confirmTask ⟨some ⟨"Pay rent", "High", "Not Started", "2025-02-28"⟩, []⟩
        (some "2") none true =
      ({ pendingTask := none, sheet := [] },
       [.say noProblemMsg, .redirect "/voice/inbound-speech"]) :=
  ⟨by decide, by decide,
    C8_rejectClears ⟨some ⟨"Pay rent", "High", "Not Started", "2025-02-28"⟩,
      []⟩ (some "2") none true (by decide) (by decide)⟩

/-- Claim C9: when no task is due, the morning trigger skips the outbound
call, and the briefing handler speaks the fixed no-tasks message and hangs
up instead of a rundown. -/
theorem C9_emptySkips :
    ∀ (allTasks : List Task) (now : Int),
      computeDueTasks allTasks now 5 = [] →
      makeMorningCall allTasks now = none ∧
      morningBriefing (computeDueTasks allTasks now 5) =
        [.say noTasksMsg, .hangup] := by
  intro allTasks now h
  constructor
  · simp [makeMorningCall, h]
  · rw [h]; rfl

/-- Claim C9 witness: a store holding only a completed task yields an
empty due list; the call is skipped and the composer speaks the fixed
message. -/
theorem C9_witness :
    computeDueTasks [⟨2, "Ship it", "High", "Done", "2025-02-12"⟩]
        1739145600000 5 = [] ∧
    makeMorningCall [⟨2, "Ship it", "High", "Done", "2025-02-12"⟩]
        1739145600000 = none :=
  ⟨by decide,
    (C9_emptySkips [⟨2, "Ship it", "High", "Done", "2025-02-12"⟩]
      1739145600000 (by decide)).1⟩

/-- Claim C10 counterexample: the claim asserts that a confirmation turn
carrying an accept signal, arriving while the pending slot is empty, ends
the call with a hangup.  The turn `SpeechResult = "yes no"` carries an
accept signal (the speech contains `yes`), but because
`confirmed && app.locals.pendingTask` is falsy with an empty slot, the
handler falls through to the reject branch and redirects back to capture
instead of hanging up. -/
theorem C10_counterexample :
    confirmedOf none (some "yes no") = true ∧
    confirmTask ⟨none, []⟩ none (some "yes no") true =
      (⟨none, []⟩,
       [.say noProblemMsg, .redirect "/voice/inbound-speech"]) ∧
    Action.hangup ∉ (confirmTask ⟨none, []⟩ none (some "yes no") true).2 :=
  ⟨by decide, by decide, by decide⟩

/-- Claim C10 (amended): a confirmation turn carrying no reject signal —
an accept signal alone, or no recognizable signal at all — that arrives
while the pending slot is empty appends nothing, leaves the slot empty,
and ends the call with a bare hangup rather than failing. -/
theorem C10_emptySlotHangsUp :
    ∀ (st : ServerState) (digits speechIn : Option String) (ok : Bool),
      st.pendingTask = none →
      deniedOf digits speechIn = false →
      confirmTask st digits speechIn ok =
        ({ pendingTask := none, sheet := st.sheet }, [.hangup]) := by
  intro st digits speechIn ok hp hd
  simp [confirmTask, hp, hd]

/-- Claim C10 witness: keypad `1` (a pure accept) with an empty pending
slot: no append, slot stays empty, bare hangup. -/
theorem C10_witness :
    ((⟨none, []⟩ : ServerState).pendingTask = none) ∧
    deniedOf (some "1") none = false ∧
    confirmTask ⟨none, []⟩ (some "1") none true =
      ({ pendingTask := none, sheet := [] }, [.hangup]) :=
  ⟨rfl, by decide,
    C10_emptySlotHangsUp ⟨none, []⟩ (some "1") none true rfl (by decide)⟩

end Taskme
